import Mathlib

/-!
Verification of the quiz-chain resolver (`main.py`, `prompt_helper.py`,
`quiz_solver.py`) by a shallow embedding.  Python strings are modelled as
`List Char` (`Str`), Python string methods (`split`, `strip`, `in`,
`lower`, slicing) as executable functions with Python semantics, and the
effectful collaborators (browser fetch, HTTP download, OpenAI API, verdict
POST) as oracles supplied per iteration of the chain loop.
-/

/-- Python strings, modelled as lists of characters. -/
abbrev Str := List Char

/-- Python `s.startswith(sub)`: `sub` is a prefix of `s`. -/
def pyStartsWith : Str → Str → Bool
  | _, [] => true
  | [], _ :: _ => false
  | c :: s, d :: t => c == d && pyStartsWith s t

/-- Python `sub in s`: `sub` occurs as a contiguous substring of `s`. -/
def pyContains : Str → Str → Bool
  | [], sub => sub.isEmpty
  | c :: rest, sub => pyStartsWith (c :: rest) sub || pyContains rest sub

/-- The whitespace characters stripped by Python `str.strip()`. -/
def pyIsSpace (c : Char) : Bool :=
  c == ' ' || c == '\t' || c == '\n' || c == '\r' || c == '\x0b' || c == '\x0c'

/-- Python `s.strip()`: drop leading and trailing whitespace. -/
def pyStrip (s : Str) : Str :=
  ((s.dropWhile pyIsSpace).reverse.dropWhile pyIsSpace).reverse

/-- Python `s.lower()` (ASCII case mapping suffices for the code's inputs). -/
def pyLower (s : Str) : Str := s.map Char.toLower

/-- Worker for `pySplit`; `fuel` bounds the recursion and is set to the
length of the string, which each step strictly decreases. -/
def splitGo (sep : Str) : Nat → Str → Str → List Str
  | _, [], acc => [acc.reverse]
  | 0, s, acc => [acc.reverse ++ s]
  | fuel + 1, c :: rest, acc =>
    if pyStartsWith (c :: rest) sep then
      acc.reverse :: splitGo sep fuel ((c :: rest).drop sep.length) []
    else
      splitGo sep fuel rest (c :: acc)

/-- Python `s.split(sep)` for a non-empty separator: the list of chunks
between non-overlapping left-to-right occurrences of `sep`. -/
def pySplit (sep s : Str) : List Str :=
  if sep.isEmpty then [s] else splitGo sep s.length s []

-- Sanity checks of the Python string model on concrete inputs.
/-- The answer marker searched for by `LLMHelper._extract_answer`. -/
def ansMarker : Str := "ANSWER:".data

/-- `prompt_helper.py`, `LLMHelper._extract_answer`, method 2: the last
non-empty line of the text after stripping each line. -/
def lastNonEmptyLine (response_text : Str) : Str :=
  (((pySplit ("\n".data) response_text).map pyStrip).filter
    (fun line => !line.isEmpty)).getLastD []

/-- `prompt_helper.py`, `LLMHelper._extract_answer`: split on `"ANSWER:"`
and take the part after the last occurrence up to the next line break,
trimmed; with no marker, fall back to the last non-empty line. -/
def _extract_answer (response_text : Str) : Str :=
  if pyContains response_text ansMarker then
    let lines := pySplit ansMarker response_text
    if lines.length > 1 then
      pyStrip ((pySplit ("\n".data) (pyStrip (lines.getLastD []))).headD [])
    else
      lastNonEmptyLine response_text
  else
    lastNonEmptyLine response_text

/-! ## URL handling (`quiz_solver.py`) -/

/-- Scheme plus authority of an absolute http(s) URL, e.g.
`urlOrigin "http://host/a/b" = "http://host"`. -/
def urlOrigin (base : Str) : Str :=
  if pyStartsWith base ("https://".data) then
    "https://".data ++ (base.drop 8).takeWhile (fun c => c != '/')
  else if pyStartsWith base ("http://".data) then
    "http://".data ++ (base.drop 7).takeWhile (fun c => c != '/')
  else base

/-- `base` up to and including its last `'/'`. -/
def stripLastSegment (base : Str) : Str :=
  (base.reverse.dropWhile (fun c => c != '/')).reverse

/-- Modelled from the spec: `urllib.parse.urljoin` (Python standard
library, outside this repository) for the URL shapes the code meets —
an already-absolute http(s) `url` is returned unchanged, a root-relative
`url` is attached to the origin of `base`, and any other relative `url`
replaces the last path segment of `base`.  Dot-segment normalisation is
not modelled; the theorems below only exercise the absolute and
root-relative cases. -/
def urljoin (base url : Str) : Str :=
  if pyStartsWith url ("http://".data) || pyStartsWith url ("https://".data) then url
  else if pyStartsWith url ("/".data) then urlOrigin base ++ url
  else stripLastSegment base ++ url

/-- A character admitted into a URL by the regex `https?://[^\s\)\"<]+`
of `QuizSolver.extract_submit_url` (anything but whitespace, `)`, `"`, `<`). -/
def urlChar (c : Char) : Bool :=
  !(pyIsSpace c || c == ')' || c == '"' || c == '<')

/-- One attempted match of the regex `https?://[^\s\)\"<]+` at the head of
`s`: on success, the greedy match and the remaining text after it. -/
def matchUrlAt (s : Str) : Option (Str × Str) :=
  if pyStartsWith s ("https://".data) then
    let body := (s.drop 8).takeWhile urlChar
    if body.isEmpty then none
    else some ("https://".data ++ body, (s.drop 8).dropWhile urlChar)
  else if pyStartsWith s ("http://".data) then
    let body := (s.drop 7).takeWhile urlChar
    if body.isEmpty then none
    else some ("http://".data ++ body, (s.drop 7).dropWhile urlChar)
  else none

/-- `re.findall(r'https?://[^\s\)\"<]+', text)`: left-to-right,
non-overlapping, greedy matches.  `fuel` is set to the text length, which
every step strictly decreases. -/
def findallUrls : Nat → Str → List Str
  | _, [] => []
  | 0, _ => []
  | fuel + 1, c :: rest =>
    match matchUrlAt (c :: rest) with
    | some (m, after) => m :: findallUrls fuel after
    | none => findallUrls fuel rest

/-- `quiz_solver.py`, `QuizSolver.extract_submit_url`: mine the page text
for URLs; prefer the latest one containing `"submit"` (case-insensitively),
else return the last URL; `None` when the text has no URL.  The `base_url`
argument is accepted and ignored, exactly as in the source. -/
def extract_submit_url (text : Str) (base_url : Str) : Option Str :=
  let urls := findallUrls text.length text
  if urls.isEmpty then none
  else
    match urls.reverse.find? (fun u => pyContains (pyLower u) ("submit".data)) with
    | some u => some u
    | none => urls.getLast?

/-! ## Page parsing (`QuizSolver.visit_and_parse_quiz`) -/

/-- An anchor element of the rendered page: its raw `href` attribute (the
empty string models a missing/empty `href`) and its visible text. -/
structure Anchor where
  href : Str
  text : Str
deriving DecidableEq

/-- Python-dict insertion `d[k] = v`: update in place when the key exists,
else append, preserving insertion order. -/
def dictInsert (d : List (Str × Str)) (k v : Str) : List (Str × Str) :=
  if d.any (fun p => p.1 == k) then
    d.map (fun p => if p.1 == k then (k, v) else p)
  else d ++ [(k, v)]

/-- The anchor loop of `visit_and_parse_quiz`: skip anchors without an
`href`; resolve each `href` against the page URL; key the link map by the
stripped anchor text, falling back to the resolved URL; remember the first
resolved URL whose raw `href` contains `"/submit"` case-insensitively. -/
def scanAnchors (quiz_url : Str) :
    List Anchor → List (Str × Str) → Option Str → List (Str × Str) × Option Str
  | [], link_urls, submit_url => (link_urls, submit_url)
  | a :: rest, link_urls, submit_url =>
    if a.href.isEmpty then
      scanAnchors quiz_url rest link_urls submit_url
    else
      let t := pyStrip a.text
      let full_url := urljoin quiz_url a.href
      let link_urls := dictInsert link_urls (if t.isEmpty then full_url else t) full_url
      let submit_url :=
        if pyContains (pyLower a.href) ("/submit".data) && submit_url.isNone then
          some full_url
        else submit_url
      scanAnchors quiz_url rest link_urls submit_url

/-- The pure core of `QuizSolver.visit_and_parse_quiz`, given the rendered
page's body text and anchors: the stripped question text, the link map, and
the submit URL (from the anchors, else mined from the page text). -/
def visit_and_parse_quiz (quiz_url question_text : Str) (anchors : List Anchor) :
    Str × List (Str × Str) × Option Str :=
  let (link_urls, submit_url) := scanAnchors quiz_url anchors [] none
  let submit_url :=
    match submit_url with
    | some u => some u
    | none => extract_submit_url question_text quiz_url
  (pyStrip question_text, link_urls, submit_url)

/-- The submit URL chosen by `visit_and_parse_quiz` for a page. -/
def chooseSubmitUrl (quiz_url question_text : Str) (anchors : List Anchor) : Option Str :=
  (visit_and_parse_quiz quiz_url question_text anchors).2.2

/-! ## Data collection (`main.py`, STEP 2 of `solve_quiz_chain`) -/

/-- The extension list of the download filter in `solve_quiz_chain`. -/
def downloadExts : List Str := [".pdf".data, ".csv".data, ".json".data, ".xlsx".data]

/-- The truncation marker appended by `solve_quiz_chain` to downloaded
content longer than 5000 characters. -/
def truncMarker : Str := "\n[...content truncated...]".data

/-- A downloaded value as Python types it (`QuizSolver.download_file`
returns `response.text` — a `str` — for CSV and other text, raw bytes for
PDF, and the dict `response.json()` for `.json` links; PDF bytes are
converted to a `str` by `extract_text_from_pdf`).  `str` is Python text;
`nonstr` is any non-string value (a dict, raw bytes), carrying its
`str(...)` rendering and its Python truthiness (an empty dict or empty
bytes are falsy). -/
inductive FileData where
  | str (s : Str)
  | nonstr (render : Str) (truthy : Bool)
deriving DecidableEq

/-- Python truthiness of a downloaded value (`if file_data:`). -/
def fdTruthy : FileData → Bool
  | .str s => !s.isEmpty
  | .nonstr _ t => t

/-- Python `str(...)` of a downloaded value, as used by the prompt
builder's `str(data_content)`. -/
def pyStr : FileData → Str
  | .str s => s
  | .nonstr r _ => r

/-- The size cap of STEP 2 of `solve_quiz_chain`:
`if isinstance(file_data, str) and len(file_data) > 5000`, string content
longer than 5000 characters is truncated to its first 5000 characters and
the truncation marker is appended; a non-string value (e.g. the dict of a
`.json` download) is stored unchanged. -/
def processContent : FileData → FileData
  | .str s => if s.length > 5000 then .str (s.take 5000 ++ truncMarker) else .str s
  | .nonstr r t => .nonstr r t

/-- The conditional reassignment `if ".pdf" in link_url.lower() and
file_data: file_data = solver.extract_text_from_pdf(file_data)` of STEP 2
of `solve_quiz_chain`; the extractor returns a string (empty on decode
failure). -/
def afterPdf (extract_text_from_pdf : FileData → Str) (link_url : Str)
    (fd : FileData) : FileData :=
  if pyContains (pyLower link_url) (".pdf".data) && fdTruthy fd then
    .str (extract_text_from_pdf fd)
  else fd

/-- The body of the per-link `try` block in STEP 2 of `solve_quiz_chain`:
for a link whose URL contains a filtered extension, download
(`download_file`, whose failure — modelled as `none` — yields no entry),
run the PDF text extractor on truthy `.pdf` content, drop falsy content,
and apply the size cap (strings only).  `none` means the link contributes
no entry to `downloaded_data`. -/
def processLink (download_file : Str → Option FileData)
    (extract_text_from_pdf : FileData → Str) (link_url : Str) : Option FileData :=
  if downloadExts.any (fun ext => pyContains (pyLower link_url) ext) then
    match download_file link_url with
    | none => none
    | some fd =>
      if fdTruthy (afterPdf extract_text_from_pdf link_url fd) then
        some (processContent (afterPdf extract_text_from_pdf link_url fd))
      else none
  else none

/-- STEP 2 of `solve_quiz_chain`: walk the link map in order, keeping the
entries produced by `processLink`.  The link map's keys are unique (it is
a Python dict), so insertion is modelled by `cons` in iteration order. -/
def collectData (download_file : Str → Option FileData)
    (extract_text_from_pdf : FileData → Str) :
    List (Str × Str) → List (Str × FileData)
  | [] => []
  | (link_text, link_url) :: rest =>
    match processLink download_file extract_text_from_pdf link_url with
    | some fd => (link_text, fd) :: collectData download_file extract_text_from_pdf rest
    | none => collectData download_file extract_text_from_pdf rest

/-! ## Prompt construction and answer extraction
(`prompt_helper.py`, `LLMHelper.solve_quiz`) -/

/-- `LLMHelper.solve_quiz`: each data item is embedded into the prompt as
the first 3000 characters of its `str(...)` rendering
(`str(data_content)[:3000]`). -/
def content_preview (data_content : FileData) : Str := (pyStr data_content).take 3000

/-- The `AVAILABLE DATA` section of the prompt built by
`LLMHelper.solve_quiz`; empty when there is no data. -/
def data_section (available_data : List (Str × FileData)) : Str :=
  if available_data.isEmpty then []
  else
    "\n\nAVAILABLE DATA:\n".data ++
      available_data.foldl
        (fun acc p => acc ++ "\n--- ".data ++ p.1 ++ " ---\n".data ++
          content_preview p.2 ++ "\n".data) []

/-- The `AVAILABLE LINKS` section of the prompt built by
`LLMHelper.solve_quiz`; empty when there are no links. -/
def links_section (links : List (Str × Str)) : Str :=
  if links.isEmpty then []
  else
    "\n\nAVAILABLE LINKS:\n".data ++
      links.foldl
        (fun acc p => acc ++ "- ".data ++ p.1 ++ ": ".data ++ p.2 ++ "\n".data) []

/-- The fixed text of `full_prompt` before the question. -/
def promptPreamble : Str :=
  ("You are an expert data analyst. Solve this quiz step by step.\n\nQUIZ QUESTION:\n").data

/-- The fixed text of `full_prompt` after the links section. -/
def promptInstructions : Str :=
  ("\n\nINSTRUCTIONS:\n1. Carefully read and understand the question\n2. Identify what information you need\n3. Use the available data to find the answer\n4. Show your reasoning (optional, for debugging)\n5. At the very end, provide ONLY the final answer on a new line starting with \"ANSWER:\"\n\nIMPORTANT CONSTRAINTS:\n- Be precise in all calculations\n- For tables/data extraction, identify columns correctly\n- If the question asks for a number, provide a number\n- If it asks for text, provide text exactly as specified\n- If it asks for a boolean, provide true or false\n- Do NOT include extra text after the answer\n\nNow solve the quiz:").data

/-- The prompt assembled by `LLMHelper.solve_quiz`. -/
def full_prompt (question_text : Str) (available_data : List (Str × FileData))
    (links : List (Str × Str)) : Str :=
  promptPreamble ++ question_text ++ "\n".data ++ data_section available_data ++
    "\n".data ++ links_section links ++ promptInstructions

/-- `LLMHelper.solve_quiz`: build the prompt, call the OpenAI API
(modelled as the oracle `api`, `none` meaning the call raised), strip the
response, and extract the answer.  An API failure propagates (`none`). -/
def solve_quiz (api : Str → Option Str) (question_text : Str)
    (available_data : List (Str × FileData)) (links : List (Str × Str)) : Option Str :=
  match api (full_prompt question_text available_data links) with
  | none => none
  | some full_response => some ( _extract_answer (pyStrip full_response))

/-! ## The chain loop (`main.py`, `solve_quiz_chain`) -/

/-- The checker's JSON verdict as read by `solve_quiz_chain`:
`result.get("correct")` and `result.get("url")`, each `none` when the
field is missing. -/
structure Verdict where
  correct : Option Bool
  url : Option Str
deriving DecidableEq

/-- The dictionary returned by `visit_and_parse_quiz`, as consumed by the
loop: question text, link map, submit URL. -/
structure QuizData where
  question : Str
  links : List (Str × Str)
  submit_url : Option Str
deriving DecidableEq

/-- The external effects of one loop iteration, as oracles: the clock at
the top of the iteration, the fetched page (`none` = `visit_and_parse_quiz`
raised), the download and PDF collaborators, the two OpenAI calls made by
the duplicated STEP 3 blocks (`none` = the call raised, keyed by the
prompt), and the verdict POST (`none` = the request/parse raised).
Times are modelled as integer seconds. -/
structure StepEnv where
  now : Int
  fetch : Option QuizData
  download_file : Str → Option FileData
  extract_text_from_pdf : FileData → Str
  api1 : Str → Option Str
  api2 : Str → Option Str
  post : Option Verdict

/-- The payload `{email, secret, url, answer}` POSTed to the submit URL. -/
structure Submission where
  email : Str
  secret : Str
  url : Str
  answer : Str
deriving DecidableEq

/-- How an execution of `solve_quiz_chain` ended, following the spec's
state names: `done` = chain complete, `failed` = a step failed or the
checker stopped the chain, `timedOut` = the deadline check at the top of
an iteration failed, `exhausted` = the supplied oracle trace ran out while
the loop would have continued (an artifact of the finite trace). -/
inductive ChainStatus where
  | done
  | failed
  | timedOut
  | exhausted
deriving DecidableEq

/-- The observable outcome of `solve_quiz_chain`: the final `quiz_count`,
the exit classification, the URLs visited (one per iteration, in order),
the submission payloads constructed for the POST, and the number of
`close_browser` calls. -/
structure ChainResult where
  quiz_count : Nat
  status : ChainStatus
  visited : List Str
  submissions : List Submission
  cleanup_calls : Nat
deriving DecidableEq

/-- Python truthiness of an optional string (`None` and `""` are falsy). -/
def truthyOptStr : Option Str → Bool
  | some (_ :: _) => true
  | _ => false

/-- The outcome of one iteration of the loop body: exit the loop with a
status, or continue with the next `current_url`; either way carrying the
submissions constructed during the iteration. -/
inductive IterOut where
  | exit (st : ChainStatus) (subs : List Submission)
  | next (url : Str) (subs : List Submission)
deriving DecidableEq

/-- The submissions constructed during one iteration. -/
def iterSubs : IterOut → List Submission
  | .exit _ s => s
  | .next _ s => s

/-- The test guarding the fixed-answer branch of the first STEP 3 block:
this is the first iteration and the current URL contains `"/project2"`. -/
def isFixedEntryStep (current_url : Str) (count : Nat) : Bool :=
  pyContains current_url ("/project2".data) && (count == 1)

/-- The fixed answer used for the `/project2` entry step. -/
def fixedAnswer : Str := "start".data

/-- One iteration of the `while` body of `solve_quiz_chain`, after the
loop condition has passed.  `count` is `quiz_count` after the increment at
the top of the iteration; `time_remaining` is `QUIZ_TIMEOUT` minus the
elapsed time.  STEP 1 fetches (failure breaks the loop); STEP 2 collects
data; the first STEP 3 block uses the fixed answer `"start"` on the first
iteration of a `/project2` URL and otherwise calls the LLM (failure
breaks); the duplicated second STEP 3 block always calls the LLM again,
overwriting `answer` (failure breaks); STEP 4 breaks when there is no
truthy submit URL, else constructs the payload and POSTs it (failure
breaks); STEP 5 decides the transition from the verdict. -/
def runIteration (email secret current_url : Str) (count : Nat)
    (time_remaining : Int) (env : StepEnv) : IterOut :=
  match env.fetch with
  | none => .exit .failed []
  | some quiz_data =>
    let downloaded_data :=
      collectData env.download_file env.extract_text_from_pdf quiz_data.links
    let answer1 :=
      if isFixedEntryStep current_url count then
        some fixedAnswer
      else
        solve_quiz env.api1 quiz_data.question downloaded_data quiz_data.links
    match answer1 with
    | none => .exit .failed []
    | some _ =>
      match solve_quiz env.api2 quiz_data.question downloaded_data quiz_data.links with
      | none => .exit .failed []
      | some answer =>
        if !truthyOptStr quiz_data.submit_url then .exit .failed []
        else
          let payload : Submission := ⟨email, secret, current_url, answer⟩
          match env.post with
          | none => .exit .failed [payload]
          | some result =>
            if result.correct == some true then
              match result.url with
              | some next_url =>
                if !next_url.isEmpty then .next next_url [payload]
                else .exit .done [payload]
              | none => .exit .done [payload]
            else
              match result.url with
              | some next_url =>
                if !next_url.isEmpty && time_remaining > 30 then .next next_url [payload]
                else .exit .failed [payload]
              | none => .exit .failed [payload]

/-- The `while` loop of `solve_quiz_chain`: stop when `current_url` is
falsy; consume one oracle environment per iteration; stop with `timedOut`
when the deadline check at the top of the iteration fails; otherwise run
the body and either exit or continue with the next URL. -/
def chainLoop (email secret : Str) (quiz_timeout start_time : Int) :
    List StepEnv → Str → Nat → List Str → List Submission → ChainResult
  | _, [], count, visited, subs => ⟨count, .done, visited, subs, 0⟩
  | [], _ :: _, count, visited, subs => ⟨count, .exhausted, visited, subs, 0⟩
  | env :: rest, c :: cs, count, visited, subs =>
    if !(env.now - start_time < quiz_timeout) then
      ⟨count, .timedOut, visited, subs, 0⟩
    else
      let current_url : Str := c :: cs
      let count := count + 1
      let time_remaining := quiz_timeout - (env.now - start_time)
      let visited := visited ++ [current_url]
      match runIteration email secret current_url count time_remaining env with
      | .exit st s => ⟨count, st, visited, subs ++ s, 0⟩
      | .next next_url s =>
        chainLoop email secret quiz_timeout start_time rest next_url count visited (subs ++ s)

/-- `solve_quiz_chain`: run the loop from the triggering URL and invoke
the guaranteed cleanup (`solver.close_browser()` in the `finally` block)
exactly once on the way out. -/
def solve_quiz_chain (email secret quiz_url : Str) (start_time : Int)
    (quiz_timeout : Int) (envs : List StepEnv) : ChainResult :=
  let r := chainLoop email secret quiz_timeout start_time envs quiz_url 0 [] []
  { r with cleanup_calls := r.cleanup_calls + 1 }

/-! ## Claim-side models and concrete witness oracles -/

/-- Modelled from the spec: the path component of a URL (the spec's
submit-link rule speaks of a link "whose path contains submit"): what
follows the authority of an absolute http(s) URL, up to any query or
fragment. -/
def urlPath (u : Str) : Str :=
  let afterScheme :=
    if pyStartsWith u ("https://".data) then u.drop 8
    else if pyStartsWith u ("http://".data) then u.drop 7
    else u
  (afterScheme.dropWhile (fun c => c != '/')).takeWhile (fun c => c != '?' && c != '#')

/-- Modelled from the claim C6: choose the submit URL by scanning the
page's links (resolved against the page URL) for one whose path contains
`"submit"`; if none exists, mine the page text exactly as
`extract_submit_url` does (latest URL containing `"submit"`, else the last
URL). -/
def specChooseSubmitUrl (quiz_url question_text : Str) (anchors : List Anchor) : Option Str :=
  let resolved :=
    (anchors.filter (fun a => !a.href.isEmpty)).map (fun a => urljoin quiz_url a.href)
  match resolved.find? (fun u => pyContains (pyLower (urlPath u)) ("submit".data)) with
  | some u => some u
  | none => extract_submit_url question_text quiz_url

/-- Modelled from the claim C8: the claimed allow-list of data-bearing
extensions. -/
def claimedExts : List Str :=
  [".pdf".data, ".csv".data, ".json".data, ".xlsx".data,
   ".txt".data, ".xml".data, ".png".data, ".jpg".data]

/-- Modelled from the spec: "`currentUrl` is always an absolute URL". -/
def isAbsoluteUrl (u : Str) : Bool :=
  pyStartsWith u ("http://".data) || pyStartsWith u ("https://".data)

/-- Shared concrete oracles for loop-level witnesses: a page with an empty
link map and a submit URL. -/
def wPage : QuizData := ⟨"q".data, [], some ("http://q/submit".data)⟩

/-- A concrete environment: the LLM answers `"ANSWER: 7"` and the checker
verdict is `{correct: true}` with no next url. -/
def wEnv : StepEnv :=
  { now := 0
    fetch := some wPage
    download_file := fun _ => none
    extract_text_from_pdf := fun fd => pyStr fd
    api1 := fun _ => some ("ANSWER: 7".data)
    api2 := fun _ => some ("ANSWER: 7".data)
    post := some ⟨some true, none⟩ }

/-- A concrete environment whose checker verdict is correct with the
relative next url `"/step2"`. -/
def wEnvRel : StepEnv :=
  { now := 0
    fetch := some wPage
    download_file := fun _ => none
    extract_text_from_pdf := fun fd => pyStr fd
    api1 := fun _ => some ("ANSWER: 7".data)
    api2 := fun _ => some ("ANSWER: 7".data)
    post := some ⟨some true, some ("/step2".data)⟩ }

/-- A concrete environment whose fetch fails (used as a second iteration). -/
def wEnvDead : StepEnv :=
  { now := 1
    fetch := none
    download_file := fun _ => none
    extract_text_from_pdf := fun fd => pyStr fd
    api1 := fun _ => none
    api2 := fun _ => none
    post := none }

/-- A concrete environment whose second backend call returns an empty
output, so answer extraction yields the empty string. -/
def wEnvEmptyAns : StepEnv :=
  { now := 0
    fetch := some wPage
    download_file := fun _ => none
    extract_text_from_pdf := fun fd => pyStr fd
    api1 := fun _ => some ("ANSWER: 7".data)
    api2 := fun _ => some []
    post := some ⟨some true, none⟩ }

/-! ## Lemmas about the Python string model -/

theorem pyStartsWith_append (xs ys : Str) : pyStartsWith (xs ++ ys) xs = true := by
  induction xs with
  | nil => cases ys <;> simp [pyStartsWith]
  | cons c t ih => simp [pyStartsWith, ih]

theorem pyContains_append_self (sub s : Str) (h : sub ≠ []) :
    pyContains (sub ++ s) sub = true := by
  match sub, h with
  | c :: t, _ =>
    have := pyStartsWith_append (c :: t) s
    simp only [List.cons_append, pyContains] at *
    simp [this]

theorem splitGo_fuel (sep : Str) (hsep : sep ≠ []) :
    ∀ (fuel₁ fuel₂ : Nat) (s acc : Str), s.length ≤ fuel₁ → s.length ≤ fuel₂ →
      splitGo sep fuel₁ s acc = splitGo sep fuel₂ s acc := by
  intro fuel₁
  induction fuel₁ with
  | zero =>
    intro fuel₂ s acc h₁ _
    have : s = [] := List.eq_nil_of_length_eq_zero (Nat.le_zero.mp h₁)
    subst this
    cases fuel₂ <;> rfl
  | succ f ih =>
    intro fuel₂ s acc h₁ h₂
    match s with
    | [] => cases fuel₂ <;> rfl
    | c :: cs =>
      have hsl : 1 ≤ sep.length := by
        cases sep with
        | nil => exact absurd rfl hsep
        | cons d t => simp
      match fuel₂ with
      | 0 => simp at h₂
      | g + 1 =>
        simp only [splitGo]
        by_cases hsw : pyStartsWith (c :: cs) sep = true
        · simp only [hsw, if_true]
          have hd : ((c :: cs).drop sep.length).length ≤ f := by
            simp only [List.length_drop, List.length_cons] at *
            omega
          have hd₂ : ((c :: cs).drop sep.length).length ≤ g := by
            simp only [List.length_drop, List.length_cons] at *
            omega
          rw [ih g _ [] hd hd₂]
        · simp only [hsw, Bool.false_eq_true, if_false]
          simp only [List.length_cons] at h₁ h₂
          rw [ih g cs (c :: acc) (by omega) (by omega)]

theorem splitGo_of_not_contains (sep : Str) :
    ∀ (s : Str), pyContains s sep = false →
      ∀ (fuel : Nat) (acc : Str), s.length ≤ fuel →
        splitGo sep fuel s acc = [acc.reverse ++ s] := by
  intro s
  induction s with
  | nil =>
    intro _ fuel acc _
    cases fuel <;> simp [splitGo]
  | cons c cs ih =>
    intro h fuel acc hf
    simp only [pyContains, Bool.or_eq_false_iff] at h
    match fuel with
    | 0 => simp at hf
    | f + 1 =>
      simp only [splitGo, h.1, Bool.false_eq_true, if_false]
      rw [ih h.2 f (c :: acc) (by simp at hf; omega)]
      simp

theorem splitGo_startsWith (sep : Str) (hsep : sep ≠ []) (s acc : Str)
    (hsw : pyStartsWith s sep = true) (fuel : Nat) (hf : s.length ≤ fuel + 1) :
    splitGo sep (fuel + 1) s acc =
      acc.reverse :: splitGo sep (s.drop sep.length).length (s.drop sep.length) [] := by
  match s with
  | [] =>
    cases sep with
    | nil => exact absurd rfl hsep
    | cons d t => simp [pyStartsWith] at hsw
  | c :: cs =>
    simp only [splitGo, hsw, if_true]
    have hsl : 1 ≤ sep.length := by
      cases sep with
      | nil => exact absurd rfl hsep
      | cons d t => simp
    rw [splitGo_fuel sep hsep fuel ((c :: cs).drop sep.length).length _ []
      (by simp only [List.length_drop, List.length_cons] at *; omega) (le_refl _)]

theorem pySplit_sep_append (sep : Str) (hsep : sep ≠ []) (ans : Str)
    (h : pyContains ans sep = false) :
    pySplit sep (sep ++ ans) = [[], ans] := by
  have hie : sep.isEmpty = false := by
    cases sep with
    | nil => exact absurd rfl hsep
    | cons c t => rfl
  simp only [pySplit, hie, Bool.false_eq_true, if_false]
  obtain ⟨f, hf⟩ : ∃ f, (sep ++ ans).length = f + 1 := by
    cases sep with
    | nil => exact absurd rfl hsep
    | cons c t => exact ⟨(t ++ ans).length, by simp⟩
  rw [hf, splitGo_startsWith sep hsep _ [] (pyStartsWith_append sep ans) f (by rw [hf]),
    List.drop_left, splitGo_of_not_contains sep ans h _ [] (le_refl _)]
  simp

theorem pyContains_append_left (x s sub : Str) (h : pyContains s sub = true) :
    pyContains (x ++ s) sub = true := by
  induction x with
  | nil => simpa using h
  | cons c x' ih =>
    simp only [List.cons_append, pyContains, Bool.or_eq_true]
    exact Or.inr ih

/-- `"ANSWER:"` has no nontrivial border, so no occurrence of the marker
can start inside a shorter-than-7-character prefix region and spill into
an adjacent literal marker: a match at the head of
`c :: pre ++ "ANSWER:" ++ ans` with `(c :: pre).length < 7` is
impossible. -/
theorem ansMarker_no_straddle (c : Char) (pre ans : Str) (hlen : pre.length < 6)
    (hsw : pyStartsWith (c :: (pre ++ (ansMarker ++ ans))) ansMarker = true) : False := by
  match pre with
  | [] => simp [ansMarker, pyStartsWith] at hsw
  | [a] => simp [ansMarker, pyStartsWith] at hsw
  | [a, b] => simp [ansMarker, pyStartsWith] at hsw
  | [a, b, d] => simp [ansMarker, pyStartsWith] at hsw
  | [a, b, d, e] => simp [ansMarker, pyStartsWith] at hsw
  | [a, b, d, e, f] => simp [ansMarker, pyStartsWith] at hsw
  | a :: b :: d :: e :: f :: g :: rest =>
    simp at hlen
    omega

theorem splitGo_base (ans : Str) (h : pyContains ans ansMarker = false)
    (acc : Str) (fuel : Nat) (hfuel : (ansMarker ++ ans).length ≤ fuel) :
    ∃ mid, splitGo ansMarker fuel (ansMarker ++ ans) acc = mid ++ [ans] ∧ mid ≠ [] := by
  match fuel with
  | 0 =>
    exfalso
    simp [ansMarker] at hfuel
  | f + 1 =>
    rw [splitGo_startsWith ansMarker (by decide) _ acc (pyStartsWith_append _ _) f hfuel,
      List.drop_left, splitGo_of_not_contains ansMarker ans h _ [] (le_refl _)]
    exact ⟨[acc.reverse], by simp, by simp⟩

/-- The last chunk of splitting `pre ++ "ANSWER:" ++ ans` on the marker is
exactly `ans` whenever `ans` is marker-free — the explicit occurrence is
the LAST occurrence, whatever `pre` contains. -/
theorem splitGo_last_chunk (ans : Str) (h : pyContains ans ansMarker = false) :
    ∀ (n : Nat) (pre : Str), pre.length ≤ n →
      ∀ (acc : Str) (fuel : Nat), (pre ++ (ansMarker ++ ans)).length ≤ fuel →
        ∃ mid, splitGo ansMarker fuel (pre ++ (ansMarker ++ ans)) acc = mid ++ [ans] ∧
          mid ≠ [] := by
  intro n
  induction n with
  | zero =>
    intro pre hpre acc fuel hfuel
    have hnil : pre = [] := List.eq_nil_of_length_eq_zero (Nat.le_zero.mp hpre)
    subst hnil
    exact splitGo_base ans h acc fuel (by simpa using hfuel)
  | succ n ih =>
    intro pre hpre acc fuel hfuel
    match pre with
    | [] => exact splitGo_base ans h acc fuel (by simpa using hfuel)
    | c :: pre' =>
      match fuel with
      | 0 =>
        exfalso
        simp at hfuel
      | f + 1 =>
        rw [List.cons_append]
        rw [List.cons_append] at hfuel
        simp only [List.length_cons] at hpre
        by_cases hsw : pyStartsWith (c :: (pre' ++ (ansMarker ++ ans))) ansMarker = true
        · by_cases hlen : pre'.length < 6
          · exact absurd hsw (fun hs => ansMarker_no_straddle c pre' ans hlen hs)
          · push_neg at hlen
            have hdrop : (c :: (pre' ++ (ansMarker ++ ans))).drop ansMarker.length =
                pre'.drop 6 ++ (ansMarker ++ ans) := by
              have h7 : ansMarker.length = 6 + 1 := rfl
              rw [h7, List.drop_succ_cons]
              exact List.drop_append_of_le_length hlen
            simp only [splitGo]
            rw [if_pos hsw, hdrop]
            obtain ⟨mid, hmid, hne⟩ := ih (pre'.drop 6)
              (by simp only [List.length_drop]; omega) [] f
              (by
                simp only [List.length_cons, List.length_append,
                  List.length_drop] at hfuel ⊢
                omega)
            exact ⟨acc.reverse :: mid, by rw [hmid]; rfl, by simp⟩
        · simp only [splitGo]
          rw [if_neg hsw]
          exact ih pre' (by omega) (c :: acc) f
            (by
              simp only [List.length_cons, List.length_append] at hfuel ⊢
              omega)

theorem pySplit_last_chunk (pre ans : Str) (h : pyContains ans ansMarker = false) :
    ∃ mid, pySplit ansMarker (pre ++ (ansMarker ++ ans)) = mid ++ [ans] ∧ mid ≠ [] := by
  have hie : ansMarker.isEmpty = false := by decide
  simp only [pySplit, hie, Bool.false_eq_true, if_false]
  exact splitGo_last_chunk ans h pre.length pre (le_refl _) [] _ (le_refl _)

/-! ## The claims -/

/-- C4: the answer extractor satisfies the three reference cases:
`extract("blah blah\nANSWER: 42\nignored") = "42"`,
`extract("first\nsecond\nthird") = "third"` (no marker),
`extract("") = ""`. -/
theorem C4_extract_reference_cases :
    _extract_answer ("blah blah\nANSWER: 42\nignored".data) = "42".data ∧
    _extract_answer ("first\nsecond\nthird".data) = "third".data ∧
    _extract_answer ([]) = ([] : Str) :=
  ⟨by decide, by decide, by decide⟩

/-- C5 counterexample: the claim says the marker is found
case-insensitively, so `extract("answer: 42")` would have to give `"42"`;
the code's check `"ANSWER:" in response_text` is case-sensitive, the
lower-case marker is not recognised, and the extractor falls through to
the last non-empty line, returning the whole text `"answer: 42"`. -/
theorem C5_counterexample :
    _extract_answer ("answer: 42".data) = "answer: 42".data ∧
    _extract_answer ("answer: 42".data) ≠ "42".data :=
  ⟨by decide, by decide⟩

/-- C5 (amended): for every input text containing the exact upper-case
marker — an arbitrary prefix (which may itself contain further marker
occurrences), then `"ANSWER:"`, then a marker-free tail — the extractor
finds the marker case-sensitively and returns everything after its LAST
occurrence up to the next line break, trimmed (the code trims the tail,
takes its first line, and trims again). -/
theorem C5_amended_marker_case_sensitive (pre ans : Str)
    (h : pyContains ans ansMarker = false) :
    _extract_answer (pre ++ ansMarker ++ ans) =
      pyStrip ((pySplit ("\n".data) (pyStrip ans)).headD []) := by
  rw [List.append_assoc]
  obtain ⟨mid, hmid, hne⟩ := pySplit_last_chunk pre ans h
  have hc : pyContains (pre ++ (ansMarker ++ ans)) ansMarker = true :=
    pyContains_append_left pre _ _ (pyContains_append_self _ _ (by decide))
  have hgt : (mid ++ [ans]).length > 1 := by
    cases mid with
    | nil => exact absurd rfl hne
    | cons x xs => simp
  unfold _extract_answer
  rw [if_pos hc]
  simp only [hmid]
  rw [if_pos hgt, List.getLastD_concat]

/-- C5 amended-claim witness: on the concrete input
`"ANSWER: 1\nANSWER: 42\nrest"` — the marker occurring twice, with text
before the last occurrence — the extractor returns `"42"`, the trimmed
first line after the LAST occurrence. -/
theorem C5_amended_witness :
    pyContains (" 42\nrest".data) ansMarker = false ∧
    _extract_answer (("ANSWER: 1\n".data) ++ ansMarker ++ (" 42\nrest".data)) = "42".data := by
  refine ⟨by decide, ?_⟩
  rw [C5_amended_marker_case_sensitive ("ANSWER: 1\n".data) (" 42\nrest".data) (by decide)]
  decide

/-- C6 counterexample: a page whose only link is `http://x/resubmit` — a
URL whose path contains `"submit"` — and whose text contains only the URL
`http://y/other`.  The claim's selection rule picks the link; the code's
anchor test requires the substring `"/submit"` in the raw href, which
`http://x/resubmit` lacks, so the code falls through to text mining and
returns `http://y/other`. -/
theorem C6_counterexample :
    chooseSubmitUrl ("http://q/a".data) ("see http://y/other".data)
        [⟨"http://x/resubmit".data, "go".data⟩]
      = some ("http://y/other".data) ∧
    specChooseSubmitUrl ("http://q/a".data) ("see http://y/other".data)
        [⟨"http://x/resubmit".data, "go".data⟩]
      = some ("http://x/resubmit".data) :=
  ⟨by decide, by decide⟩

theorem scanAnchors_submit_some (quiz_url : Str) :
    ∀ (anchors : List Anchor) (d : List (Str × Str)) (u : Str),
      (scanAnchors quiz_url anchors d (some u)).2 = some u := by
  intro anchors
  induction anchors with
  | nil => intro d u; rfl
  | cons a rest ih =>
    intro d u
    by_cases h : a.href.isEmpty <;> simp [scanAnchors, h, ih]

theorem scanAnchors_submit_none (quiz_url : Str) :
    ∀ (anchors : List Anchor) (d : List (Str × Str)),
      (scanAnchors quiz_url anchors d none).2 =
        Option.map (fun a => urljoin quiz_url a.href)
          (anchors.find?
            (fun a => !a.href.isEmpty && pyContains (pyLower a.href) ("/submit".data))) := by
  intro anchors
  induction anchors with
  | nil => intro d; rfl
  | cons a rest ih =>
    intro d
    by_cases he : a.href.isEmpty
    · simp [scanAnchors, List.find?, he, ih]
    · by_cases hs : pyContains (pyLower a.href) ("/submit".data)
      · simp [scanAnchors, List.find?, he, hs, scanAnchors_submit_some]
      · simp [scanAnchors, List.find?, he, hs, ih]

theorem mem_of_pyStartsWith (s sub : Str) (h : pyStartsWith s sub = true) :
    ∀ c ∈ sub, c ∈ s := by
  induction sub generalizing s with
  | nil => intro c hc; simp at hc
  | cons d t ih =>
    match s with
    | [] => simp [pyStartsWith] at h
    | e :: s' =>
      simp only [pyStartsWith, Bool.and_eq_true, beq_iff_eq] at h
      intro c hc
      rcases List.mem_cons.mp hc with h1 | h1
      · exact h1 ▸ h.1 ▸ List.mem_cons_self e s'
      · exact List.mem_cons_of_mem e (ih s' h.2 c h1)

theorem mem_of_pyContains (s sub : Str) (h : pyContains s sub = true)
    {c : Char} (hc : c ∈ sub) : c ∈ s := by
  induction s with
  | nil =>
    simp only [pyContains, List.isEmpty_iff] at h
    subst h
    simp at hc
  | cons e s' ih =>
    simp only [pyContains, Bool.or_eq_true] at h
    rcases h with h | h
    · exact mem_of_pyStartsWith _ _ h c hc
    · exact List.mem_cons_of_mem _ (ih h)

/-- C6 (amended): the submit URL is chosen by first scanning the page's
anchors for the first one (with a non-empty href) whose RAW HREF contains
the substring `"/submit"` case-insensitively — such a link, resolved
against the page URL, is preferred over any URL mined from free text —
and, if no such anchor exists, by scanning the page text for absolute
URLs, preferring the one containing `"submit"` that occurs latest, else
taking the last URL found. -/
theorem C6_amended_href_slash_submit (quiz_url question_text : Str) (anchors : List Anchor) :
    chooseSubmitUrl quiz_url question_text anchors =
      match anchors.find?
          (fun a => !a.href.isEmpty && pyContains (pyLower a.href) ("/submit".data)) with
      | some a => some (urljoin quiz_url a.href)
      | none => extract_submit_url question_text quiz_url := by
  have h2 := scanAnchors_submit_none quiz_url anchors []
  simp only [chooseSubmitUrl, visit_and_parse_quiz]
  cases hq : scanAnchors quiz_url anchors [] none with
  | mk lu su =>
    rw [hq] at h2
    simp only at h2
    rw [h2]
    cases hf : anchors.find?
        (fun a => !a.href.isEmpty && pyContains (pyLower a.href) ("/submit".data)) <;>
      simp [hf]

theorem processContent_str_length (fd : FileData) (s : Str)
    (h : processContent fd = .str s) : s.length ≤ 5000 + truncMarker.length := by
  cases fd with
  | str s0 =>
    rw [processContent] at h
    split at h
    · rw [FileData.str.injEq] at h
      subst h
      simp only [List.length_append, List.length_take]
      omega
    · rw [FileData.str.injEq] at h
      subst h
      omega
  | nonstr r t => exact absurd h (by simp [processContent])

theorem processContent_nonstr (fd : FileData) (r : Str) (t : Bool)
    (h : processContent fd = .nonstr r t) : fd = .nonstr r t := by
  cases fd with
  | str s0 =>
    rw [processContent] at h
    split at h <;> exact absurd h (by simp)
  | nonstr r0 t0 => exact h ▸ rfl

theorem processLink_str_length (dl : Str → Option FileData) (pdf : FileData → Str)
    (u : Str) (s : Str) (h : processLink dl pdf u = some (.str s)) :
    s.length ≤ 5000 + truncMarker.length := by
  unfold processLink at h
  split at h
  · split at h
    · exact absurd h (by simp)
    · split at h
      · rw [Option.some_inj] at h
        exact processContent_str_length _ _ h
      · exact absurd h (by simp)
  · exact absurd h (by simp)

theorem processLink_nonstr (dl : Str → Option FileData) (pdf : FileData → Str)
    (u : Str) (r : Str) (t : Bool) (h : processLink dl pdf u = some (.nonstr r t)) :
    ∃ fd0, dl u = some fd0 ∧ afterPdf pdf u fd0 = .nonstr r t := by
  unfold processLink at h
  split at h
  · split at h
    · exact absurd h (by simp)
    · rename_i fd0 hdl
      split at h
      · rw [Option.some_inj] at h
        exact ⟨fd0, hdl, processContent_nonstr _ _ _ h⟩
      · exact absurd h (by simp)
  · exact absurd h (by simp)

theorem processLink_allowed (dl : Str → Option FileData) (pdf : FileData → Str)
    (u : Str) (v : FileData) (h : processLink dl pdf u = some v) :
    (downloadExts.any fun ext => pyContains (pyLower u) ext) = true := by
  unfold processLink at h
  split at h
  · assumption
  · exact absurd h (by simp)

theorem processLink_of_dl_none (dl : Str → Option FileData) (pdf : FileData → Str)
    (u : Str) (hdl : dl u = none) : processLink dl pdf u = none := by
  unfold processLink
  rw [hdl]
  split <;> rfl

/-- C7 counterexample: a collected item of 4000 characters is under the
5000-character download cap (so it reaches the prompt builder untouched,
with no marker), exceeds the prompt builder's 3000-character budget (so it
is truncated as it is embedded into the prompt), and yet the truncation
marker appears nowhere in the resulting prompt section — the prompt
builder caps with a bare slice and appends nothing. -/
theorem C7_counterexample :
    content_preview (FileData.str (List.replicate 4000 'a')) ≠ List.replicate 4000 'a' ∧
    pyContains (data_section [("d".data, FileData.str (List.replicate 4000 'a'))])
      truncMarker = false := by
  have hpre : content_preview (FileData.str (List.replicate 4000 'a')) =
      List.replicate 3000 'a' := by
    simp only [content_preview, pyStr, List.take_replicate]
    rw [Nat.min_eq_left (by norm_num)]
  constructor
  · intro h
    rw [hpre] at h
    have hlen := congrArg List.length h
    rw [List.length_replicate, List.length_replicate] at hlen
    norm_num at hlen
  · cases hcontra : pyContains
        (data_section [("d".data, FileData.str (List.replicate 4000 'a'))]) truncMarker
    · rfl
    · exfalso
      have hm : '[' ∈ data_section [("d".data, FileData.str (List.replicate 4000 'a'))] :=
        mem_of_pyContains _ _ hcontra (by decide)
      have hds : data_section [("d".data, FileData.str (List.replicate 4000 'a'))] =
          "\n\nAVAILABLE DATA:\n".data ++
            (([] : Str) ++ "\n--- ".data ++ "d".data ++ " ---\n".data ++
              List.replicate 3000 'a' ++ "\n".data) := by
        rw [data_section, if_neg (by decide)]
        simp only [List.foldl]
        rw [hpre]
      rw [hds] at hm
      simp only [List.mem_append, List.mem_replicate] at hm
      revert hm
      decide

/-- C7 (amended): the prompt builder caps each embedded data item at the
first 3000 characters of its `str(...)` rendering, appending no marker in
the prompt; separately, the download step truncates STRING items over
5000 characters and appends its marker there, while a non-string item
(the dict of a `.json` download) is stored exactly as it was downloaded —
untruncated and unmarked. -/
theorem C7_amended_caps (fd : FileData) :
    ((content_preview fd).length ≤ 3000 ∧ content_preview fd <+: pyStr fd) ∧
    (∀ (dl : Str → Option FileData) (pdf : FileData → Str)
        (links : List (Str × Str)) (k s : Str),
      (k, FileData.str s) ∈ collectData dl pdf links →
        s.length ≤ 5000 + truncMarker.length) ∧
    (∀ (dl : Str → Option FileData) (pdf : FileData → Str)
        (links : List (Str × Str)) (k r : Str) (t : Bool),
      (k, FileData.nonstr r t) ∈ collectData dl pdf links →
        ∃ u fd0, (k, u) ∈ links ∧ dl u = some fd0 ∧
          afterPdf pdf u fd0 = FileData.nonstr r t) := by
  refine ⟨⟨?_, List.take_prefix 3000 (pyStr fd)⟩, ?_, ?_⟩
  · rw [content_preview, List.length_take]
    omega
  · intro dl pdf links
    induction links with
    | nil => intro k s h; simp [collectData] at h
    | cons p rest ih =>
      intro k s h
      cases p with
      | mk t u =>
        rw [collectData] at h
        cases hp : processLink dl pdf u with
        | none => rw [hp] at h; exact ih k s h
        | some v =>
          rw [hp] at h
          rcases List.mem_cons.mp h with h1 | h1
          · have hv := congrArg Prod.snd h1
            simp only at hv
            exact processLink_str_length dl pdf u s (hv ▸ hp)
          · exact ih k s h1
  · intro dl pdf links
    induction links with
    | nil => intro k r t h; simp [collectData] at h
    | cons p rest ih =>
      intro k r t h
      cases p with
      | mk kt u =>
        rw [collectData] at h
        cases hp : processLink dl pdf u with
        | none =>
          rw [hp] at h
          obtain ⟨w, fd0, hw, hdl, hap⟩ := ih k r t h
          exact ⟨w, fd0, List.mem_cons_of_mem _ hw, hdl, hap⟩
        | some v =>
          rw [hp] at h
          rcases List.mem_cons.mp h with h1 | h1
          · have hk := congrArg Prod.fst h1
            have hv := congrArg Prod.snd h1
            simp only at hk hv
            obtain ⟨fd0, hdl, hap⟩ := processLink_nonstr dl pdf u r t (hv ▸ hp)
            exact ⟨u, fd0, hk ▸ List.mem_cons_self _ _, hdl, hap⟩
          · obtain ⟨w, fd0, hw, hdl, hap⟩ := ih k r t h1
            exact ⟨w, fd0, List.mem_cons_of_mem _ hw, hdl, hap⟩

/-- C7 amended-claim witness: the bounds at a concrete collected string
item and its prompt preview, and a concrete `.json` dict item stored
exactly as downloaded. -/
theorem C7_amended_witness :
    (content_preview (FileData.str ("abc".data))).length ≤ 3000 ∧
    (("k".data, FileData.str ("abc".data)) ∈
        collectData (fun _ => some (FileData.str ("abc".data))) (fun fd => pyStr fd)
          [("k".data, "http://x/a.csv".data)] ∧
      ("abc".data).length ≤ 5000 + truncMarker.length) ∧
    ∃ u fd0, ("j".data, u) ∈ [("j".data, "http://x/d.json".data)] ∧
      (fun _ => some (FileData.nonstr ("jsondict".data) true) : Str → Option FileData) u = some fd0 ∧
      afterPdf (fun fd => pyStr fd) u fd0 = FileData.nonstr ("jsondict".data) true := by
  refine ⟨(C7_amended_caps (FileData.str ("abc".data))).1.1, ⟨by decide, ?_⟩, ?_⟩
  · exact (C7_amended_caps (FileData.str [])).2.1
      (fun _ => some (FileData.str ("abc".data))) (fun fd => pyStr fd)
      [("k".data, "http://x/a.csv".data)] ("k".data) ("abc".data) (by decide)
  · exact (C7_amended_caps (FileData.str [])).2.2
      (fun _ => some (FileData.nonstr ("jsondict".data) true)) (fun fd => pyStr fd)
      [("j".data, "http://x/d.json".data)] ("j".data) ("jsondict".data) true (by decide)

theorem any_claimed_of_any_download (p : Str → Bool)
    (h : downloadExts.any p = true) : claimedExts.any p = true := by
  simp only [downloadExts, List.any_cons, List.any_nil, Bool.or_eq_true] at h
  simp only [claimedExts, List.any_cons, List.any_nil, Bool.or_eq_true]
  tauto

theorem collectData_append (dl : Str → Option FileData) (pdf : FileData → Str) :
    ∀ (links₁ links₂ : List (Str × Str)),
      collectData dl pdf (links₁ ++ links₂) =
        collectData dl pdf links₁ ++ collectData dl pdf links₂ := by
  intro links₁ links₂
  induction links₁ with
  | nil => simp [collectData]
  | cons p rest ih =>
    cases p with
    | mk t u =>
      rw [List.cons_append, collectData, collectData]
      cases hp : processLink dl pdf u <;> simp [ih]

/-- C8: the data collection step downloads only links whose URL carries an
extension from the claimed allow-list (pdf, csv, json, xlsx, txt, xml,
png, jpg) — the code filters on the sublist pdf/csv/json/xlsx, so every
collected key comes from a link matching the claimed list; for the
reference link map `{"data": http://x/data.csv, "page":
http://x/page.html}` only the `"data"` key can result (and does, whenever
the download of `data.csv` yields non-empty content); and a failed
download merely omits its link from the result, leaving the other links'
results unchanged. -/
theorem C8_collect_allowlist_and_isolation :
    (∀ (dl : Str → Option FileData) (pdf : FileData → Str)
        (links : List (Str × Str)) (k : Str) (v : FileData),
        (k, v) ∈ collectData dl pdf links →
        ∃ u, (k, u) ∈ links ∧
          (claimedExts.any fun ext => pyContains (pyLower u) ext) = true) ∧
    (∀ (dl : Str → Option FileData) (pdf : FileData → Str) (content : FileData),
        dl ("http://x/data.csv".data) = some content → fdTruthy content = true →
        (collectData dl pdf
            [("data".data, "http://x/data.csv".data),
             ("page".data, "http://x/page.html".data)]).map Prod.fst = ["data".data]) ∧
    (∀ (dl : Str → Option FileData) (pdf : FileData → Str)
        (links₁ links₂ : List (Str × Str)) (k u : Str),
        dl u = none →
        collectData dl pdf (links₁ ++ (k, u) :: links₂) =
          collectData dl pdf (links₁ ++ links₂)) := by
  refine ⟨?_, ?_, ?_⟩
  · intro dl pdf links
    induction links with
    | nil => intro k v h; simp [collectData] at h
    | cons p rest ih =>
      intro k v h
      cases p with
      | mk t u =>
        rw [collectData] at h
        cases hp : processLink dl pdf u with
        | none =>
          rw [hp] at h
          obtain ⟨w, hw, hext⟩ := ih k v h
          exact ⟨w, List.mem_cons_of_mem _ hw, hext⟩
        | some fd =>
          rw [hp] at h
          rcases List.mem_cons.mp h with h1 | h1
          · have hk := congrArg Prod.fst h1
            simp only at hk
            refine ⟨u, hk ▸ List.mem_cons_self _ _, ?_⟩
            exact any_claimed_of_any_download _ (processLink_allowed dl pdf u fd hp)
          · obtain ⟨w, hw, hext⟩ := ih k v h1
            exact ⟨w, List.mem_cons_of_mem _ hw, hext⟩
  · intro dl pdf content hdl htr
    have hap : afterPdf pdf ("http://x/data.csv".data) content = content := by
      unfold afterPdf
      rw [show pyContains (pyLower ("http://x/data.csv".data)) (".pdf".data) = false from
        by decide]
      rfl
    have h1 : processLink dl pdf ("http://x/data.csv".data) =
        some (processContent content) := by
      unfold processLink
      rw [if_pos (by decide), hdl]
      show (if fdTruthy (afterPdf pdf ("http://x/data.csv".data) content) = true then
          some (processContent (afterPdf pdf ("http://x/data.csv".data) content))
        else none) = some (processContent content)
      rw [hap, if_pos htr]
    have h2 : processLink dl pdf ("http://x/page.html".data) = none := by
      unfold processLink
      rw [if_neg (by decide)]
    rw [collectData, h1, collectData, h2, collectData]
    rfl
  · intro dl pdf links₁ links₂ k u hdl
    rw [collectData_append, collectData_append]
    have : collectData dl pdf ((k, u) :: links₂) = collectData dl pdf links₂ := by
      rw [collectData, processLink_of_dl_none dl pdf u hdl]
    rw [this]

/-- C8 witness: the three parts of the theorem applied at concrete inputs
with every hypothesis discharged. -/
theorem C8_witness :
    (∃ u, ("data".data, u) ∈
        [("data".data, "http://x/data.csv".data),
         ("page".data, "http://x/page.html".data)] ∧
      (claimedExts.any fun ext => pyContains (pyLower u) ext) = true) ∧
    (collectData (fun _ => some (FileData.str ("1,2".data))) (fun fd => pyStr fd)
        [("data".data, "http://x/data.csv".data),
         ("page".data, "http://x/page.html".data)]).map Prod.fst = ["data".data] ∧
    collectData (fun _ => none) (fun fd => pyStr fd)
        ([("a".data, "http://x/v.json".data)] ++ ("k".data, "http://x/w.csv".data) :: []) =
      collectData (fun _ => none) (fun fd => pyStr fd)
        ([("a".data, "http://x/v.json".data)] ++ []) := by
  refine ⟨?_, ?_, ?_⟩
  · exact C8_collect_allowlist_and_isolation.1 (fun _ => some (FileData.str ("1,2".data)))
      (fun fd => pyStr fd)
      [("data".data, "http://x/data.csv".data),
       ("page".data, "http://x/page.html".data)] ("data".data)
      (FileData.str ("1,2".data)) (by decide)
  · exact C8_collect_allowlist_and_isolation.2.1 (fun _ => some (FileData.str ("1,2".data)))
      (fun fd => pyStr fd) (FileData.str ("1,2".data)) rfl (by decide)
  · exact C8_collect_allowlist_and_isolation.2.2 (fun _ => none) (fun fd => pyStr fd)
      [("a".data, "http://x/v.json".data)] [] ("k".data) ("http://x/w.csv".data) rfl

/-! ## Lemmas about the chain loop -/

theorem runIteration_submit_phase
    (email secret current : Str) (count : Nat) (tr : Int) (env : StepEnv)
    (page : QuizData) (a1 ans : Str) (result : Verdict)
    (hfetch : env.fetch = some page)
    (hans1 : (if isFixedEntryStep current count then some fixedAnswer
        else solve_quiz env.api1 page.question
          (collectData env.download_file env.extract_text_from_pdf page.links)
          page.links) = some a1)
    (hans2 : solve_quiz env.api2 page.question
        (collectData env.download_file env.extract_text_from_pdf page.links)
        page.links = some ans)
    (hsubmit : truthyOptStr page.submit_url = true)
    (hpost : env.post = some result) :
    runIteration email secret current count tr env =
      (if result.correct == some true then
        match result.url with
        | some next_url =>
          if !next_url.isEmpty then IterOut.next next_url [⟨email, secret, current, ans⟩]
          else IterOut.exit .done [⟨email, secret, current, ans⟩]
        | none => IterOut.exit .done [⟨email, secret, current, ans⟩]
      else
        match result.url with
        | some next_url =>
          if !next_url.isEmpty && tr > 30 then
            IterOut.next next_url [⟨email, secret, current, ans⟩]
          else IterOut.exit .failed [⟨email, secret, current, ans⟩]
        | none => IterOut.exit .failed [⟨email, secret, current, ans⟩]) := by
  obtain ⟨now, fetch, dlo, pdfo, api1o, api2o, posto⟩ := env
  dsimp only at hfetch hans1 hans2 hpost
  subst hfetch
  subst hpost
  unfold runIteration
  dsimp only
  rw [hans1]
  dsimp only
  rw [hans2]
  dsimp only
  rw [hsubmit]
  rfl

theorem chainLoop_cons (email secret : Str) (qt st : Int) (env : StepEnv)
    (rest : List StepEnv) (c : Char) (cs : Str) (count : Nat) (visited : List Str)
    (subs : List Submission) (htime : env.now - st < qt) :
    chainLoop email secret qt st (env :: rest) (c :: cs) count visited subs =
      (match runIteration email secret (c :: cs) (count + 1) (qt - (env.now - st)) env with
      | .exit s2 s => ⟨count + 1, s2, visited ++ [c :: cs], subs ++ s, 0⟩
      | .next u s =>
        chainLoop email secret qt st rest u (count + 1) (visited ++ [c :: cs])
          (subs ++ s)) := by
  rw [chainLoop]
  rw [if_neg (by simp [htime])]

theorem beq_some_true_eq_false (o : Option Bool) (h : o ≠ some true) :
    (o == some true) = false := by
  cases o with
  | none => rfl
  | some b =>
    cases b with
    | false => rfl
    | true => exact absurd rfl h

/-- C1: for every submission verdict processed by `solve_quiz_chain` (an
iteration that passed the deadline check, fetched a page, obtained an
answer from both STEP 3 blocks, had a truthy submit URL and received a
parsed verdict), the transition decision is: correct verdict with a
(non-empty) next url — `currentUrl` becomes that url and the loop
continues; correct with no url — the chain ends as `DONE`; incorrect with
a next url and remaining time greater than 30 seconds — `currentUrl`
becomes that url without retrying the failed step; incorrect with no next
url or remaining time at most 30 seconds — the chain stops.  A missing
`correct` field (`result.correct = none`) falls under `≠ some true`, i.e.
is treated as false, and a missing `url` field (`result.url = none`) is
treated as no next step. -/
theorem C1_transition_decision
    (email secret : Str) (quiz_timeout start_time : Int) (env : StepEnv)
    (rest : List StepEnv) (current : Str) (count : Nat) (visited : List Str)
    (subs : List Submission) (page : QuizData) (a1 ans : Str) (result : Verdict)
    (hcur : current ≠ [])
    (htime : env.now - start_time < quiz_timeout)
    (hfetch : env.fetch = some page)
    (hans1 : (if isFixedEntryStep current (count + 1) then some fixedAnswer
        else solve_quiz env.api1 page.question
          (collectData env.download_file env.extract_text_from_pdf page.links)
          page.links) = some a1)
    (hans2 : solve_quiz env.api2 page.question
        (collectData env.download_file env.extract_text_from_pdf page.links)
        page.links = some ans)
    (hsubmit : truthyOptStr page.submit_url = true)
    (hpost : env.post = some result) :
    (∀ u, result.correct = some true → result.url = some u → u ≠ [] →
      chainLoop email secret quiz_timeout start_time (env :: rest) current count visited subs =
        chainLoop email secret quiz_timeout start_time rest u (count + 1)
          (visited ++ [current]) (subs ++ [⟨email, secret, current, ans⟩])) ∧
    (result.correct = some true → truthyOptStr result.url = false →
      chainLoop email secret quiz_timeout start_time (env :: rest) current count visited subs =
        ⟨count + 1, ChainStatus.done, visited ++ [current],
          subs ++ [⟨email, secret, current, ans⟩], 0⟩) ∧
    (∀ u, result.correct ≠ some true → result.url = some u → u ≠ [] →
      quiz_timeout - (env.now - start_time) > 30 →
      chainLoop email secret quiz_timeout start_time (env :: rest) current count visited subs =
        chainLoop email secret quiz_timeout start_time rest u (count + 1)
          (visited ++ [current]) (subs ++ [⟨email, secret, current, ans⟩])) ∧
    (result.correct ≠ some true →
      (truthyOptStr result.url = false ∨ ¬(quiz_timeout - (env.now - start_time) > 30)) →
      chainLoop email secret quiz_timeout start_time (env :: rest) current count visited subs =
        ⟨count + 1, ChainStatus.failed, visited ++ [current],
          subs ++ [⟨email, secret, current, ans⟩], 0⟩) := by
  obtain ⟨c, cs, rfl⟩ : ∃ c cs, current = c :: cs := by
    cases current with
    | nil => exact absurd rfl hcur
    | cons c cs => exact ⟨c, cs, rfl⟩
  have hrun := runIteration_submit_phase email secret (c :: cs) (count + 1)
    (quiz_timeout - (env.now - start_time)) env page a1 ans result hfetch hans1 hans2
    hsubmit hpost
  have hloop := chainLoop_cons email secret quiz_timeout start_time env rest c cs count
    visited subs htime
  refine ⟨?_, ?_, ?_, ?_⟩
  · intro u h1 h2 h3
    have hu : u.isEmpty = false := by
      cases u with
      | nil => exact absurd rfl h3
      | cons x xs => rfl
    rw [hloop, hrun, h1, h2]
    simp [hu]
  · intro h1 h2
    rw [hloop, hrun, h1]
    cases hu : result.url with
    | none => simp
    | some u =>
      rw [hu] at h2
      cases u with
      | nil => simp
      | cons x xs => simp [truthyOptStr] at h2
  · intro u h1 h2 h3 h4
    have hu : u.isEmpty = false := by
      cases u with
      | nil => exact absurd rfl h3
      | cons x xs => rfl
    rw [hloop, hrun, beq_some_true_eq_false result.correct h1, h2]
    simp [hu, decide_eq_true h4]
  · intro h1 h2
    rw [hloop, hrun, beq_some_true_eq_false result.correct h1]
    rcases h2 with h2 | h2
    · cases hu : result.url with
      | none => simp
      | some u =>
        rw [hu] at h2
        cases u with
        | nil => simp
        | cons x xs => simp [truthyOptStr] at h2
    · cases hu : result.url with
      | none => simp
      | some u => simp [decide_eq_false h2]

/-- C1 witness: a concrete iteration whose verdict is correct with no next
url ends the chain as `DONE` after one step. -/
theorem C1_witness :
    chainLoop ("e@x".data) ("s".data) 180 0 [wEnv] ("http://q/a".data) 0 [] [] =
      ⟨1, ChainStatus.done, ["http://q/a".data],
        [⟨"e@x".data, "s".data, "http://q/a".data, "7".data⟩], 0⟩ := by
  exact (C1_transition_decision ("e@x".data) ("s".data) 180 0 wEnv [] ("http://q/a".data)
    0 [] [] wPage ("7".data) ("7".data) ⟨some true, none⟩
    (by decide) (by decide) rfl (by decide) (by decide) rfl rfl).2.1 rfl rfl

/-- C9: when the page fetch of the first iteration fails (within the
deadline, on a non-empty start URL), the chain terminates immediately with
status `FAILED` and `quiz_count = 1`; only one URL is ever visited (the
failed fetch is not retried — the remaining oracle trace `rest` is never
consulted), no submission is made, and the browser cleanup runs exactly
once on this exit path. -/
theorem C9_first_fetch_failure
    (email secret quiz_url : Str) (start_time quiz_timeout : Int)
    (env : StepEnv) (rest : List StepEnv)
    (hurl : quiz_url ≠ [])
    (htime : env.now - start_time < quiz_timeout)
    (hfetch : env.fetch = none) :
    solve_quiz_chain email secret quiz_url start_time quiz_timeout (env :: rest) =
      ⟨1, ChainStatus.failed, [quiz_url], [], 1⟩ := by
  obtain ⟨c, cs, rfl⟩ : ∃ c cs, quiz_url = c :: cs := by
    cases quiz_url with
    | nil => exact absurd rfl hurl
    | cons c cs => exact ⟨c, cs, rfl⟩
  have hrun : runIteration email secret (c :: cs) 1
      (quiz_timeout - (env.now - start_time)) env = .exit .failed [] := by
    unfold runIteration
    rw [hfetch]
  unfold solve_quiz_chain
  rw [chainLoop_cons email secret quiz_timeout start_time env rest c cs 0 [] [] htime, hrun]
  rfl

/-- C9 witness: the theorem at a concrete environment whose fetch fails. -/
theorem C9_witness :
    solve_quiz_chain ("e@x".data) ("s".data) ("http://q/a".data) 0 180
        [{ now := 0, fetch := none, download_file := fun _ => none,
           extract_text_from_pdf := fun fd => pyStr fd, api1 := fun _ => none,
           api2 := fun _ => none, post := none }] =
      ⟨1, ChainStatus.failed, ["http://q/a".data], [], 1⟩ :=
  C9_first_fetch_failure ("e@x".data) ("s".data) ("http://q/a".data) 0 180 _ []
    (by decide) (by decide) rfl

theorem runIteration_subs_payload
    (email secret current : Str) (count : Nat) (tr : Int) (env : StepEnv)
    (page : QuizData) (a1 content : Str)
    (hfetch : env.fetch = some page)
    (hans1 : (if isFixedEntryStep current count then some fixedAnswer
        else solve_quiz env.api1 page.question
          (collectData env.download_file env.extract_text_from_pdf page.links)
          page.links) = some a1)
    (hapi2 : env.api2 (full_prompt page.question
        (collectData env.download_file env.extract_text_from_pdf page.links)
        page.links) = some content)
    (hsubmit : truthyOptStr page.submit_url = true) :
    iterSubs (runIteration email secret current count tr env) =
      [⟨email, secret, current, _extract_answer (pyStrip content)⟩] := by
  obtain ⟨now, fetch, dlo, pdfo, api1o, api2o, posto⟩ := env
  dsimp only at hfetch hans1 hapi2
  subst hfetch
  have h2 : solve_quiz api2o page.question
      (collectData dlo pdfo page.links) page.links =
      some ( _extract_answer (pyStrip content)) := by
    unfold solve_quiz
    rw [hapi2]
  unfold runIteration
  dsimp only
  rw [hans1]
  dsimp only
  rw [h2]
  dsimp only
  rw [hsubmit]
  simp only [Bool.not_true, Bool.false_eq_true, if_false]
  cases posto with
  | none => rfl
  | some result =>
    dsimp only
    split <;> (split <;> first | rfl | (split <;> rfl))

/-- C10: on every iteration that fetches a page and passes the first
STEP 3 block — including the first iteration of a `/project2` URL, where
the fixed answer `"start"` is first selected — the duplicated second
STEP 3 block unconditionally calls the reasoning backend again, so (a) a
backend failure there terminates the iteration as `FAILED` even on the
fixed-answer entry step, and (b) whenever the submission is reached, the
answer in the posted payload is the one extracted from the second backend
call's output, overwriting the fixed answer. -/
theorem C10_duplicate_reasoning_overwrites
    (email secret current : Str) (count : Nat) (tr : Int) (env : StepEnv)
    (page : QuizData) (a1 : Str)
    (hfetch : env.fetch = some page)
    (hans1 : (if isFixedEntryStep current count then some fixedAnswer
        else solve_quiz env.api1 page.question
          (collectData env.download_file env.extract_text_from_pdf page.links)
          page.links) = some a1) :
    (env.api2 (full_prompt page.question
        (collectData env.download_file env.extract_text_from_pdf page.links)
        page.links) = none →
      runIteration email secret current count tr env = .exit .failed []) ∧
    (∀ content, env.api2 (full_prompt page.question
        (collectData env.download_file env.extract_text_from_pdf page.links)
        page.links) = some content →
      truthyOptStr page.submit_url = true →
      iterSubs (runIteration email secret current count tr env) =
        [⟨email, secret, current, _extract_answer (pyStrip content)⟩]) := by
  constructor
  · intro hapi2
    obtain ⟨now, fetch, dlo, pdfo, api1o, api2o, posto⟩ := env
    dsimp only at hfetch hans1 hapi2
    subst hfetch
    have h2 : solve_quiz api2o page.question
        (collectData dlo pdfo page.links) page.links = none := by
      unfold solve_quiz
      rw [hapi2]
    unfold runIteration
    dsimp only
    rw [hans1]
    dsimp only
    rw [h2]
  · intro content hapi2 hsubmit
    exact runIteration_subs_payload email secret current count tr env page a1 content
      hfetch hans1 hapi2 hsubmit

/-- C10 witness: on the `/project2` entry step (fixed answer selected
first), the posted answer is the one extracted from the backend output
`"ANSWER: 7"`, not `"start"`. -/
theorem C10_witness :
    isFixedEntryStep ("http://q/project2".data) 1 = true ∧
    iterSubs (runIteration ("e@x".data) ("s".data) ("http://q/project2".data) 1 100 wEnv) =
      [⟨"e@x".data, "s".data, "http://q/project2".data, "7".data⟩] := by
  refine ⟨by decide, ?_⟩
  rw [(C10_duplicate_reasoning_overwrites ("e@x".data) ("s".data)
    ("http://q/project2".data) 1 100 wEnv wPage fixedAnswer rfl (by decide)).2
    ("ANSWER: 7".data) rfl (by decide)]
  decide

/-- C2 counterexample: when the checker returns the relative next url
`"/step2"`, the loop stores it verbatim — the second iteration starts with
`currentUrl = "/step2"`, which is not an absolute URL; no resolution
against any base happens between the verdict and the next iteration. -/
theorem C2_counterexample :
    (solve_quiz_chain ("e@x".data) ("s".data) ("http://start/a".data) 0 180
        [wEnvRel, wEnvDead]).visited =
      ["http://start/a".data, "/step2".data] ∧
    isAbsoluteUrl ("/step2".data) = false :=
  ⟨by decide, by decide⟩

/-- C2 (amended): the next url returned by the checker is stored as the
next `currentUrl` verbatim, with no resolution against any base: whenever
the transition continues (correct verdict, or remaining time above the
margin), the continuation url of the iteration outcome is exactly the
verdict's `url` field, absolute or not. -/
theorem C2_amended_next_url_verbatim
    (email secret current : Str) (count : Nat) (tr : Int) (env : StepEnv)
    (page : QuizData) (a1 ans u : Str) (result : Verdict)
    (hfetch : env.fetch = some page)
    (hans1 : (if isFixedEntryStep current count then some fixedAnswer
        else solve_quiz env.api1 page.question
          (collectData env.download_file env.extract_text_from_pdf page.links)
          page.links) = some a1)
    (hans2 : solve_quiz env.api2 page.question
        (collectData env.download_file env.extract_text_from_pdf page.links)
        page.links = some ans)
    (hsubmit : truthyOptStr page.submit_url = true)
    (hpost : env.post = some result)
    (hurl : result.url = some u)
    (hune : u ≠ [])
    (hgo : result.correct = some true ∨ tr > 30) :
    runIteration email secret current count tr env =
      .next u [⟨email, secret, current, ans⟩] := by
  have hu : u.isEmpty = false := by
    cases u with
    | nil => exact absurd rfl hune
    | cons x xs => rfl
  rw [runIteration_submit_phase email secret current count tr env page a1 ans result
    hfetch hans1 hans2 hsubmit hpost, hurl]
  rcases hgo with hgo | hgo
  · rw [hgo]
    simp [hu]
  · by_cases hb : (result.correct == some true) = true
    · simp [hb, hu]
    · simp [hb, hu, decide_eq_true hgo]

/-- C2 amended-claim witness: the relative url `"/step2"` from the
checker becomes the next current URL unchanged. -/
theorem C2_amended_witness :
    runIteration ("e@x".data) ("s".data) ("http://q/a".data) 1 100 wEnvRel =
      .next ("/step2".data) [⟨"e@x".data, "s".data, "http://q/a".data, "7".data⟩] :=
  C2_amended_next_url_verbatim ("e@x".data) ("s".data) ("http://q/a".data) 1 100 wEnvRel
    wPage ("7".data) ("7".data) ("/step2".data) ⟨some true, some ("/step2".data)⟩
    rfl (by decide) (by decide) (by decide) rfl rfl (by decide) (Or.inl rfl)

/-- C3 counterexample: when extraction yields the empty string (backend
output with no non-blank line), the empty string itself is POSTed as the
answer — no non-empty placeholder is substituted. -/
theorem C3_counterexample :
    (solve_quiz_chain ("e@x".data) ("s".data) ("http://q/a".data) 0 180
        [wEnvEmptyAns]).submissions.map (fun p => p.answer) = [[]] := by
  decide

/-- C3 (amended): the caller performs no placeholder substitution: when
answer extraction over the backend output yields the empty string, the
submission payload carries exactly the empty string as its answer
value. -/
theorem C3_amended_empty_answer_posted
    (email secret current : Str) (count : Nat) (tr : Int) (env : StepEnv)
    (page : QuizData) (a1 content : Str)
    (hfetch : env.fetch = some page)
    (hans1 : (if isFixedEntryStep current count then some fixedAnswer
        else solve_quiz env.api1 page.question
          (collectData env.download_file env.extract_text_from_pdf page.links)
          page.links) = some a1)
    (hapi2 : env.api2 (full_prompt page.question
        (collectData env.download_file env.extract_text_from_pdf page.links)
        page.links) = some content)
    (hempty : _extract_answer (pyStrip content) = [])
    (hsubmit : truthyOptStr page.submit_url = true) :
    iterSubs (runIteration email secret current count tr env) =
      [⟨email, secret, current, []⟩] := by
  rw [runIteration_subs_payload email secret current count tr env page a1 content
    hfetch hans1 hapi2 hsubmit, hempty]

/-- C3 amended-claim witness: the empty extraction is posted as the empty
answer at a concrete environment. -/
theorem C3_amended_witness :
    iterSubs (runIteration ("e@x".data) ("s".data) ("http://q/a".data) 1 100 wEnvEmptyAns) =
      [⟨"e@x".data, "s".data, "http://q/a".data, []⟩] :=
  C3_amended_empty_answer_posted ("e@x".data) ("s".data) ("http://q/a".data) 1 100
    wEnvEmptyAns wPage ("7".data) [] rfl (by decide) rfl (by decide) (by decide)
